import Mathlib

/-!
Verification of the fio-analyzer backend core against its specification.

The development shallowly embeds the Python source of the repository:

* the FIO metric extractor (`backend/routers/imports.py`:
  `extract_iops`, `extract_latency`, `extract_bandwidth`,
  `extract_percentile_latency`);
* the deterministic identity deriver
  (`backend/database/connection.py` / `backend/scripts/migrate_add_uuids.py`:
  `generate_uuid_from_hash`, over a concrete SHA-256);
* the two-table store (`test_runs` / `test_runs_all`) with the ingestion
  pipeline (`DatabaseManager.update_latest_flags`, `insert_test_run`) and the
  delete operations (`delete_time_series`, `delete_test_run`);
* the trend analysis (`backend/routers/time_series.py`: `get_trends`);
* the saturation analysis (`backend/routers/test_runs.py`:
  `get_saturation_data`).

Numeric values that are Python floats in the source are embedded as rationals
(`ℚ`); the computations the theorems evaluate are exact in both worlds.
Dictionary fields accessed with `.get(k, default)` are embedded as `Option`
fields read with `Option.getD`.
-/

namespace FioAnalyzer

/-! ## Metric extractor (`backend/routers/imports.py`)

A FIO job document carries `read` / `write` sub-objects; a missing sub-object
behaves as the empty dict, i.e. every field of that side reads as absent.
`clat_ns.percentile` is a map keyed by strings of the shape `"95.000000"`;
the extractor only ever queries keys formatted from an integer percentile, so
the map is embedded keyed by that integer. -/

structure FioSide where
  iops : Option ℚ
  io_ops : Option ℚ
  bw_bytes : Option ℚ
  lat_mean : Option ℚ
  clat_percentile : List (Nat × ℚ)
deriving DecidableEq

structure FioJob where
  read : FioSide
  write : FioSide
deriving DecidableEq

/-- Lookup of one percentile entry, mirroring the Python dict access
`.get("percentile", \x7b\x7d).get(f"...", 0)` before the default is applied. -/
def lookupPct (ps : List (Nat × ℚ)) (p : Nat) : Option ℚ :=
  (ps.find? (fun kv => kv.fst == p)).map (·.snd)

/-- Embedding of `extract_iops` (imports.py:597-611). -/
def extract_iops (job : FioJob) : ℚ :=
  let read_iops := job.read.iops.getD 0
  let write_iops := job.write.iops.getD 0
  read_iops + write_iops

/-- Embedding of `extract_latency` (imports.py:614-639). -/
def extract_latency (job : FioJob) : ℚ :=
  let read_lat := job.read.lat_mean.getD 0
  let write_lat := job.write.lat_mean.getD 0
  let total_ios := job.read.io_ops.getD 0 + job.write.io_ops.getD 0
  if total_ios = 0 then 0
  else
    let read_ios := job.read.io_ops.getD 0
    let write_ios := job.write.io_ops.getD 0
    let weighted_lat := (read_lat * read_ios + write_lat * write_ios) / total_ios
    weighted_lat / 1000000

/-- Embedding of `extract_bandwidth` (imports.py:642-657). -/
def extract_bandwidth (job : FioJob) : ℚ :=
  let read_bw := job.read.bw_bytes.getD 0
  let write_bw := job.write.bw_bytes.getD 0
  (read_bw + write_bw) / (1024 * 1024)

/-- Embedding of `extract_percentile_latency` (imports.py:660-680). -/
def extract_percentile_latency (job : FioJob) (percentile : Nat) : ℚ :=
  let read_lat := (lookupPct job.read.clat_percentile percentile).getD 0
  let write_lat := (lookupPct job.write.clat_percentile percentile).getD 0
  let max_lat := max read_lat write_lat
  max_lat / 1000000

/-- Metric fields of the record assembled by `extract_test_run_data`
(imports.py:574-579). -/
structure RunMetrics where
  iops : ℚ
  avg_latency : ℚ
  bandwidth : ℚ
  p95_latency : ℚ
  p99_latency : ℚ
deriving DecidableEq

/-- Metric portion of `extract_test_run_data` (imports.py:528-594). -/
def extract_run_metrics (job : FioJob) : RunMetrics :=
  { iops := extract_iops job
    avg_latency := extract_latency job
    bandwidth := extract_bandwidth job
    p95_latency := extract_percentile_latency job 95
    p99_latency := extract_percentile_latency job 99 }

/-- The example job of the specification: read.iops=1000, write.iops=500,
read.io_ops=100, write.io_ops=50, read.lat_ns.mean=200000,
write.lat_ns.mean=400000. -/
def exampleJob : FioJob :=
  { read := { iops := some 1000, io_ops := some 100, bw_bytes := none
              lat_mean := some 200000, clat_percentile := [] }
    write := { iops := some 500, io_ops := some 50, bw_bytes := none
               lat_mean := some 400000, clat_percentile := [] } }

/-- A job whose read and write sides both report zero completed I/Os. -/
def zeroIoJob : FioJob :=
  { read := { iops := some 1000, io_ops := some 0, bw_bytes := none
              lat_mean := some 200000, clat_percentile := [] }
    write := { iops := none, io_ops := none, bw_bytes := none
               lat_mean := some 400000, clat_percentile := [] } }

/-- A job carrying clat percentile entries on both sides. -/
def pctJob : FioJob :=
  { read := { iops := none, io_ops := none, bw_bytes := none
              lat_mean := none, clat_percentile := [(95, 200000), (99, 900000)] }
    write := { iops := none, io_ops := none, bw_bytes := none
               lat_mean := none, clat_percentile := [(95, 500000), (99, 800000)] } }

/-- C3: for every job document, extraction computes combined IOPS as read IOPS
plus write IOPS, and average latency as the I/O-count-weighted mean of read
mean latency and write mean latency converted from nanoseconds to
milliseconds. -/
theorem extract_iops_sum_and_latency_weighted_mean (job : FioJob)
    (ri wi rn wn rl wl : ℚ)
    (hri : job.read.iops = some ri) (hwi : job.write.iops = some wi)
    (hrn : job.read.io_ops = some rn) (hwn : job.write.io_ops = some wn)
    (hrl : job.read.lat_mean = some rl) (hwl : job.write.lat_mean = some wl)
    (hnz : rn + wn ≠ 0) :
    extract_iops job = ri + wi ∧
    extract_latency job = (rl * rn + wl * wn) / (rn + wn) / 1000000 := by
  refine ⟨?_, ?_⟩
  · simp [extract_iops, hri, hwi]
  · simp only [extract_latency, hrn, hwn, hrl, hwl, Option.getD_some]
    rw [if_neg hnz]

/-- C3 witness: the specification example job has total I/O count 150 ≠ 0,
IOPS 1000 + 500 = 1500 and weighted average latency
(200000·100 + 400000·50)/150/10⁶ ms = 4/15 ms ≈ 0.2667 ms. -/
theorem extract_iops_sum_and_latency_weighted_mean_witness :
    ((100 : ℚ) + 50 ≠ 0 ∧
      (extract_iops exampleJob = 1000 + 500 ∧
        extract_latency exampleJob =
          (200000 * 100 + 400000 * 50) / (100 + 50) / 1000000)) ∧
    extract_iops exampleJob = 1500 ∧ extract_latency exampleJob = 4 / 15 :=
  ⟨⟨by norm_num,
      extract_iops_sum_and_latency_weighted_mean exampleJob
        1000 500 100 50 200000 400000 rfl rfl rfl rfl rfl rfl (by norm_num)⟩,
    by norm_num [extract_iops, exampleJob],
    by norm_num [extract_latency, exampleJob]⟩

/-- C4: for every job document and percentile p whose read-side and
write-side clat_ns percentile maps both carry a value at p, the extracted
p-th percentile latency is the maximum of the two values divided by 10⁶,
and the p95/p99 fields of the extracted record are exactly the extractor's
values at 95 and 99. -/
theorem extract_percentile_latency_is_max (job : FioJob) (p : Nat) (rv wv : ℚ)
    (hr : lookupPct job.read.clat_percentile p = some rv)
    (hw : lookupPct job.write.clat_percentile p = some wv) :
    extract_percentile_latency job p = max rv wv / 1000000 ∧
    (extract_run_metrics job).p95_latency = extract_percentile_latency job 95 ∧
    (extract_run_metrics job).p99_latency = extract_percentile_latency job 99 := by
  refine ⟨?_, rfl, rfl⟩
  simp [extract_percentile_latency, hr, hw]

/-- C4 witness: on a job with read P95 = 200000 ns and write P95 = 500000 ns
the extracted P95 latency is max(200000, 500000)/10⁶ = 0.5 ms. -/
theorem extract_percentile_latency_is_max_witness :
    (lookupPct pctJob.read.clat_percentile 95 = some 200000 ∧
      lookupPct pctJob.write.clat_percentile 95 = some 500000) ∧
    (extract_percentile_latency pctJob 95 = max 200000 500000 / 1000000 ∧
      (extract_run_metrics pctJob).p95_latency = extract_percentile_latency pctJob 95 ∧
      (extract_run_metrics pctJob).p99_latency = extract_percentile_latency pctJob 99) ∧
    extract_percentile_latency pctJob 95 = 1 / 2 :=
  ⟨⟨by simp [lookupPct, pctJob], by simp [lookupPct, pctJob]⟩,
    extract_percentile_latency_is_max pctJob 95 200000 500000
      (by simp [lookupPct, pctJob]) (by simp [lookupPct, pctJob]),
    by norm_num [extract_percentile_latency, lookupPct, pctJob]⟩

/-- C9: for every job document whose total I/O count (read io_ops plus write
io_ops, absent counts reading as 0) is zero, average-latency extraction
returns exactly 0 instead of dividing by zero. -/
theorem extract_latency_total_on_zero_ios (job : FioJob)
    (h : job.read.io_ops.getD 0 + job.write.io_ops.getD 0 = 0) :
    extract_latency job = 0 := by
  simp only [extract_latency]
  rw [if_pos h]

/-- C9 witness: a job with read io_ops = 0 and an absent write side has total
I/O count zero and extracts average latency 0. -/
theorem extract_latency_total_on_zero_ios_witness :
    (zeroIoJob.read.io_ops.getD 0 + zeroIoJob.write.io_ops.getD 0 = 0) ∧
    extract_latency zeroIoJob = 0 :=
  ⟨by norm_num [zeroIoJob],
    extract_latency_total_on_zero_ios zeroIoJob (by norm_num [zeroIoJob])⟩

/-! ## Two-table store and ingestion pipeline

The latest-state table `test_runs` carries the UNIQUE constraint
(hostname, protocol, drive_type, drive_model, block_size, read_write_pattern,
queue_depth, num_jobs, direct, test_size, sync, iodepth, duration)
(connection.py:154), so `INSERT OR REPLACE` (imports.py:718) first deletes any
row agreeing on that tuple.  `DatabaseManager.update_latest_flags`
(connection.py:419-462) demotes by a different key: it includes `output_file`
and omits `queue_depth` and `duration`.  Both ingestion endpoints
(imports.py:185/194 single, imports.py:436/439 bulk) call
`update_latest_flags` — which issues its own `commit` — and then
`insert_test_run`, which inserts into `test_runs_all` and `test_runs` and
commits again.  A bulk file whose duplicate check hits (imports.py:431) is
skipped without touching either table, so a sequence of single and bulk
ingestions acts on the store as the fold of `ingest` over the records that
were actually inserted. -/

structure RunData where
  hostname : String
  protocol : String
  drive_type : String
  drive_model : String
  block_size : String
  read_write_pattern : String
  output_file : String
  test_size : String
  queue_depth : Nat
  duration : Nat
  num_jobs : Nat
  direct : Nat
  sync : Nat
  iodepth : Nat
  is_latest : Nat
deriving DecidableEq

/-- The UNIQUE tuple of the `test_runs` table (connection.py:154); it is the
configuration tuple of the specification (§3 `LatestStateRow`). -/
structure UniqueKeyT where
  hostname : String
  protocol : String
  drive_type : String
  drive_model : String
  block_size : String
  read_write_pattern : String
  queue_depth : Nat
  num_jobs : Nat
  direct : Nat
  test_size : String
  sync : Nat
  iodepth : Nat
  duration : Nat
deriving DecidableEq

def uniqueKey (r : RunData) : UniqueKeyT :=
  ⟨r.hostname, r.protocol, r.drive_type, r.drive_model, r.block_size,
    r.read_write_pattern, r.queue_depth, r.num_jobs, r.direct, r.test_size,
    r.sync, r.iodepth, r.duration⟩

/-- The WHERE key of the demotion UPDATE in `update_latest_flags`
(connection.py:434-456): it includes `output_file` and omits `queue_depth`
and `duration`. -/
structure DemoteKeyT where
  drive_type : String
  drive_model : String
  hostname : String
  protocol : String
  block_size : String
  read_write_pattern : String
  output_file : String
  num_jobs : Nat
  direct : Nat
  test_size : String
  sync : Nat
  iodepth : Nat
deriving DecidableEq

def demoteKey (r : RunData) : DemoteKeyT :=
  ⟨r.drive_type, r.drive_model, r.hostname, r.protocol, r.block_size,
    r.read_write_pattern, r.output_file, r.num_jobs, r.direct, r.test_size,
    r.sync, r.iodepth⟩

structure Row where
  id : Nat
  data : RunData
deriving DecidableEq

structure DB where
  test_runs : List Row
  test_runs_all : List Row
  next_runs_id : Nat
  next_all_id : Nat
deriving DecidableEq

def emptyDB : DB := ⟨[], [], 1, 1⟩

/-- Embedding of `DatabaseManager.update_latest_flags`
(connection.py:419-462): set `is_latest = 0` on every `test_runs` row whose
demote key matches the incoming record; the function commits on its own. -/
def update_latest_flags (d : RunData) (s : DB) : DB :=
  { s with
    test_runs := s.test_runs.map fun (q : Row) =>
      if demoteKey q.data = demoteKey d then
        { q with data := { q.data with is_latest := 0 } }
      else q }

/-- Embedding of `insert_test_run` (imports.py:683-727): append the record to
`test_runs_all`, then `INSERT OR REPLACE` it into `test_runs` (delete any row
agreeing on the UNIQUE tuple, insert the new row), then commit. -/
def insert_test_run (d : RunData) (s : DB) : DB :=
  { test_runs_all := s.test_runs_all ++ [⟨s.next_all_id, d⟩]
    next_all_id := s.next_all_id + 1
    test_runs :=
      s.test_runs.filter (fun (q : Row) => !decide (uniqueKey q.data = uniqueKey d))
        ++ [⟨s.next_runs_id, d⟩]
    next_runs_id := s.next_runs_id + 1 }

/-- One completed ingestion: `update_latest_flags` then `insert_test_run`, in
the order of `import_fio_data` (imports.py:185-194) and of the bulk path
(imports.py:436-439). -/
def ingest (d : RunData) (s : DB) : DB :=
  insert_test_run d (update_latest_flags d s)

/-- Effect of a completed sequence of ingestions on the store. -/
def ingestAll (ds : List RunData) (s : DB) : DB :=
  ds.foldl (fun t d => ingest d t) s

/-- Number of `test_runs` rows on a given configuration tuple. -/
def keyCount (l : List Row) (k : UniqueKeyT) : Nat :=
  l.countP fun (q : Row) => decide (uniqueKey q.data = k)

/-- Number of current (`is_latest = 1`) `test_runs` rows on a tuple. -/
def currentCount (l : List Row) (k : UniqueKeyT) : Nat :=
  l.countP fun (q : Row) => decide (uniqueKey q.data = k) && decide (q.data.is_latest = 1)

/-- Whether some historical row carries the tuple. -/
def histHas (l : List Row) (k : UniqueKeyT) : Bool :=
  l.any fun (q : Row) => decide (uniqueKey q.data = k)

theorem keyCount_update_latest_flags (d : RunData) (s : DB) (k) :
    keyCount (update_latest_flags d s).test_runs k = keyCount s.test_runs k := by
  unfold keyCount update_latest_flags
  rw [List.countP_map]
  refine List.countP_congr fun q _ => ?_
  by_cases h : demoteKey q.data = demoteKey d <;> simp [h, uniqueKey, Function.comp]

theorem keyCount_insert_self (d : RunData) (s : DB) :
    keyCount (insert_test_run d s).test_runs (uniqueKey d) = 1 := by
  unfold keyCount insert_test_run
  rw [List.countP_append]
  have h1 : (s.test_runs.filter
      (fun (q : Row) => !decide (uniqueKey q.data = uniqueKey d))).countP
        (fun (q : Row) => decide (uniqueKey q.data = uniqueKey d)) = 0 := by
    rw [List.countP_eq_zero]
    intro a ha
    have := (List.mem_filter.mp ha).2
    simpa using this
  simp [h1]

theorem keyCount_insert_other (d : RunData) (s : DB) (k)
    (hk : k ≠ uniqueKey d) :
    keyCount (insert_test_run d s).test_runs k ≤ keyCount s.test_runs k := by
  unfold keyCount insert_test_run
  rw [List.countP_append]
  have h1 : List.countP (fun (q : Row) => decide (uniqueKey q.data = k))
      [(⟨s.next_runs_id, d⟩ : Row)] = 0 := by
    simp [List.countP_cons, Ne.symm hk]
  rw [h1, Nat.add_zero]
  exact List.Sublist.countP_le _ (List.filter_sublist _)

/-- Invariant: every configuration tuple has at most one `test_runs` row. -/
def AtMostOneRow (s : DB) : Prop :=
  ∀ k, keyCount s.test_runs k ≤ 1

theorem atMostOneRow_ingest (d : RunData) (s : DB)
    (h : AtMostOneRow s) : AtMostOneRow (ingest d s) := by
  intro k
  unfold ingest
  by_cases hk : k = uniqueKey d
  · subst hk
    exact (keyCount_insert_self d _).le
  · calc keyCount (insert_test_run d (update_latest_flags d s)).test_runs k
        ≤ keyCount (update_latest_flags d s).test_runs k :=
          keyCount_insert_other d _ k hk
      _ = keyCount s.test_runs k := keyCount_update_latest_flags d s k
      _ ≤ 1 := h k

theorem atMostOneRow_ingestAll (ds : List RunData) (s : DB)
    (h : AtMostOneRow s) : AtMostOneRow (ingestAll ds s) := by
  induction ds generalizing s with
  | nil => exact h
  | cons d ds ih => exact ih _ (atMostOneRow_ingest d s h)

theorem currentCount_le_keyCount (l : List Row) (k) :
    currentCount l k ≤ keyCount l k := by
  unfold currentCount keyCount
  refine List.countP_mono_left fun q _ hq => ?_
  exact (Bool.and_eq_true _ _ ▸ hq).1

theorem currentCount_insert_self (d : RunData) (s : DB)
    (h : d.is_latest = 1) :
    currentCount (insert_test_run d s).test_runs (uniqueKey d) = 1 := by
  unfold currentCount insert_test_run
  rw [List.countP_append]
  have h1 : (s.test_runs.filter
      (fun (q : Row) => !decide (uniqueKey q.data = uniqueKey d))).countP
        (fun (q : Row) => decide (uniqueKey q.data = uniqueKey d) &&
          decide (q.data.is_latest = 1)) = 0 := by
    rw [List.countP_eq_zero]
    intro a ha
    have := (List.mem_filter.mp ha).2
    simp only [Bool.not_eq_true', decide_eq_false_iff_not] at this
    simp [this]
  simp [h1, h]

/-- A first ingested record: a 30-second 4K random-read run. -/
def cexRun1 : RunData :=
  { hostname := "srv01", protocol := "Local", drive_type := "NVMe"
    drive_model := "S980", block_size := "4K", read_write_pattern := "randread"
    output_file := "testfile", test_size := "1M", queue_depth := 1
    duration := 30, num_jobs := 1, direct := 0, sync := 0, iodepth := 1
    is_latest := 1 }

/-- A second ingested record equal to the first in every configuration
dimension except `duration` (60 seconds instead of 30).  It agrees with
`cexRun1` on the demotion key — which omits `duration` — but not on the
UNIQUE tuple, which includes it. -/
def cexRun2 : RunData := { cexRun1 with duration := 60 }

/-- C1 counterexample: ingesting `cexRun1` and then `cexRun2` (both with
`is_latest = 1`) from the empty store leaves the configuration tuple of
`cexRun1` with a row in the historical store but zero current rows in
`test_runs`: the second ingestion's demotion UPDATE matched the first row
(same demote key) while its `INSERT OR REPLACE` created a distinct row
(different UNIQUE tuple), so no current row for the first tuple remains.
The claim requires exactly one. -/
theorem exactly_one_current_per_tuple_cex :
    cexRun1.is_latest = 1 ∧ cexRun2.is_latest = 1 ∧
    histHas (ingestAll [cexRun1, cexRun2] emptyDB).test_runs_all
      (uniqueKey cexRun1) = true ∧
    currentCount (ingestAll [cexRun1, cexRun2] emptyDB).test_runs
      (uniqueKey cexRun1) = 0 := by
  decide

/-- C1 (amended): after any completed sequence of single or bulk ingestions
from the empty store, every configuration tuple has at most one current
(`is_latest = 1`) row in `test_runs` — two simultaneously current rows for
one tuple never occur — and the tuple of a just-ingested record with
`is_latest = 1` has exactly one current row.  The original "exactly one for
every tuple with historical rows" fails (see the counterexample): a later
ingestion agreeing on the demotion key but not on the UNIQUE tuple leaves a
tuple with historical rows and zero current rows. -/
theorem at_most_one_current_per_tuple (ds : List RunData) (k : UniqueKeyT)
    (d : RunData) (s : DB) (h : d.is_latest = 1) :
    currentCount (ingestAll ds emptyDB).test_runs k ≤ 1 ∧
    currentCount (ingest d s).test_runs (uniqueKey d) = 1 := by
  constructor
  · refine (currentCount_le_keyCount _ k).trans ?_
    refine atMostOneRow_ingestAll ds emptyDB (fun k' => ?_) k
    simp [keyCount, emptyDB]
  · exact currentCount_insert_self d _ h

/-- C1 witness: the amended statement evaluated on the concrete two-record
ingestion sequence. -/
theorem at_most_one_current_per_tuple_witness :
    cexRun2.is_latest = 1 ∧
    (currentCount (ingestAll [cexRun1, cexRun2] emptyDB).test_runs
        (uniqueKey cexRun1) ≤ 1 ∧
      currentCount (ingest cexRun2 emptyDB).test_runs (uniqueKey cexRun2) = 1) :=
  ⟨rfl, at_most_one_current_per_tuple [cexRun1, cexRun2] (uniqueKey cexRun1)
    cexRun2 emptyDB rfl⟩

/-- C2: the demotion and the insert are not one transaction.
`update_latest_flags` ends with its own `connection.commit()`
(connection.py:458) before `insert_test_run` runs (imports.py:185-194), so a
failure of the insert step leaves the committed demotion in place.  Starting
from a store holding the one current row for `cexRun1`'s tuple, running the
demotion step alone (the state the store is committed to when the insert
fails) leaves that tuple with historical rows but zero current rows, and the
store is not rolled back to its prior state — contradicting the claimed
atomicity.  Evaluated at the failing input. -/
theorem demote_commit_precedes_insert_cex :
    currentCount (ingest cexRun1 emptyDB).test_runs (uniqueKey cexRun1) = 1 ∧
    histHas (ingest cexRun1 emptyDB).test_runs_all (uniqueKey cexRun1) = true ∧
    currentCount (update_latest_flags cexRun1 (ingest cexRun1 emptyDB)).test_runs
      (uniqueKey cexRun1) = 0 ∧
    update_latest_flags cexRun1 (ingest cexRun1 emptyDB) ≠ ingest cexRun1 emptyDB := by
  decide

/-! ## Delete operations -/

structure DeleteResult where
  deleted : Nat
  notFound : Nat
deriving DecidableEq

/-- Embedding of `delete_time_series` (time_series.py:1326-1417): reject an
empty id list (HTTP 400, embedded as `none`), otherwise delete the addressed
rows from `test_runs_all` only and report the row count deleted and
`len(testRunIds) - deleted` as not found.  `test_runs` is never touched. -/
def delete_time_series (test_run_ids : List Nat) (s : DB) :
    Option (DeleteResult × DB) :=
  if test_run_ids.isEmpty then none
  else
    let deleted := s.test_runs_all.countP fun (q : Row) =>
      test_run_ids.contains q.id
    let not_found := test_run_ids.length - deleted
    some (⟨deleted, not_found⟩,
      { s with test_runs_all := s.test_runs_all.filter fun (q : Row) =>
          !test_run_ids.contains q.id })

/-- Embedding of `delete_test_run` (test_runs.py:1446-1497): delete the
single id from both tables, then report failure (HTTP 404, the `false`
component) when neither table had the row. -/
def delete_test_run (test_run_id : Nat) (s : DB) : Bool × DB :=
  let latest_deleted := s.test_runs.countP fun (q : Row) => q.id == test_run_id
  let all_deleted := s.test_runs_all.countP fun (q : Row) => q.id == test_run_id
  (!(latest_deleted == 0 && all_deleted == 0),
    { s with
      test_runs := s.test_runs.filter fun (q : Row) => !(q.id == test_run_id)
      test_runs_all :=
        s.test_runs_all.filter fun (q : Row) => !(q.id == test_run_id) })

/-- A store holding rows 1, 2, 3 in the historical table, with rows 1 and 2
also current in the latest-state table. -/
def cexDelDB : DB :=
  { test_runs := [⟨1, cexRun1⟩, ⟨2, cexRun2⟩]
    test_runs_all := [⟨1, cexRun1⟩, ⟨2, cexRun2⟩, ⟨3, cexRun1⟩]
    next_runs_id := 3
    next_all_id := 4 }

/-- C8 counterexample: the bulk delete addressed ids 1, 2 and 999 on a store
whose latest-state table holds rows 1 and 2; it reported deleted = 2 and
notFound = 1 but left both rows in the latest-state table — the claim's
"removes each addressed record from both stores" fails. -/
theorem delete_removes_from_both_stores_cex :
    (delete_time_series [1, 2, 999] cexDelDB).map
        (fun rs => (rs.fst, rs.snd.test_runs)) =
      some (⟨2, 1⟩, [⟨1, cexRun1⟩, ⟨2, cexRun2⟩]) := by
  decide

/-- C8 (amended): the bulk Delete removes each addressed record from the
historical store only — the latest-state store is untouched — reports the
count of rows deleted and the count of ids not found, and never errors for a
missing id (any non-empty id list yields a result). -/
theorem delete_time_series_historical_only (ids : List Nat) (s : DB)
    (h : ids ≠ []) :
    ∃ res s', delete_time_series ids s = some (res, s') ∧
      s'.test_runs = s.test_runs ∧
      res.deleted =
        (s.test_runs_all.filter fun (q : Row) => ids.contains q.id).length ∧
      res.notFound = ids.length - res.deleted ∧
      ∀ q : Row, q ∈ s'.test_runs_all ↔ q ∈ s.test_runs_all ∧ q.id ∉ ids := by
  unfold delete_time_series
  rw [if_neg (by simpa using h)]
  refine ⟨_, _, rfl, rfl, ?_, ?_, ?_⟩
  · exact List.countP_eq_length_filter _ _
  · rfl
  · intro q
    simp [List.mem_filter]

/-- C8 witness: deleting ids [1, 2, 999] from the concrete store, where 999
does not exist, returns deleted = 2 and notFound = 1. -/
theorem delete_time_series_historical_only_witness :
    (([1, 2, 999] : List Nat) ≠ [] ∧
      ∃ res s', delete_time_series [1, 2, 999] cexDelDB = some (res, s') ∧
        s'.test_runs = cexDelDB.test_runs ∧
        res.deleted = (cexDelDB.test_runs_all.filter fun (q : Row) =>
          ([1, 2, 999] : List Nat).contains q.id).length ∧
        res.notFound = 3 - res.deleted ∧
        (∀ q : Row, q ∈ s'.test_runs_all ↔
          q ∈ cexDelDB.test_runs_all ∧ q.id ∉ ([1, 2, 999] : List Nat))) ∧
    (delete_time_series [1, 2, 999] cexDelDB).map (fun rs => rs.fst) =
      some ⟨2, 1⟩ :=
  ⟨⟨by decide, delete_time_series_historical_only [1, 2, 999] cexDelDB
      (by decide)⟩, by decide⟩

/-! ## Trend analysis (`backend/routers/time_series.py:951-1100`)

The trend loop walks the metric values in timestamp order; the timestamp,
block-size, pattern and queue-depth columns are carried through unchanged and
play no role in the computation, so the embedding works on the value column.
Python formats percent strings with an f-string `:.2f` (round-half-even, no
sign for positive values); `fmt2` reproduces that on rationals, exact for
every value whose scaled form is representable, in particular for all values
the claims evaluate. -/

/-- Floor of a rational as an integer. -/
def ratFloor (q : ℚ) : ℤ := q.num.fdiv (q.den : ℤ)

/-- Round to the nearest integer, ties to even, as Python `format` does on
the decimal expansion.  The fractional part `r = q - ⌊q⌋` is compared with
1/2 through the integer inequality `2·(num − ⌊q⌋·den) ⋚ den`. -/
def roundHalfEven (q : ℚ) : ℤ :=
  let f := ratFloor q
  let rnum := 2 * (q.num - f * (q.den : ℤ))
  if rnum < (q.den : ℤ) then f
  else if (q.den : ℤ) < rnum then f + 1
  else if f % 2 = 0 then f else f + 1

/-- Two-digit zero-padded rendering of a value below 100. -/
def twoDigits (n : Nat) : String :=
  if n < 10 then "0" ++ toString n else toString n

/-- Model of the Python f-string `:.2f` on a rational. -/
def fmt2 (q : ℚ) : String :=
  let n := roundHalfEven (q * 100)
  let sign := if n < 0 then "-" else ""
  let a := n.natAbs
  sign ++ toString (a / 100) ++ "." ++ twoDigits (a % 100)

structure TrendPoint where
  value : ℚ
  moving_avg : Option ℚ
  percent_change : Option String
deriving DecidableEq

structure TrendAnalysis where
  total_points : Nat
  min_value : ℚ
  max_value : ℚ
  avg_value : ℚ
  first_value : ℚ
  last_value : ℚ
  overall_change : String
deriving DecidableEq

inductive TrendResponse
  | noData
  | result (points : List TrendPoint) (analysis : TrendAnalysis)
deriving DecidableEq

/-- The per-point loop of `get_trends` (time_series.py:1041-1071): `prev`
carries the previous iteration's value (`None` on the first pass), `i` the
running index into the full series `vs`, and the first argument the rows not
yet visited. -/
def trendLoop (vs : List ℚ) : List ℚ → Option ℚ → Nat → List TrendPoint
  | [], _, _ => []
  | v :: rest, prev, i =>
    let percent_change :=
      match prev with
      | some p => if p ≠ 0 then some (fmt2 ((v - p) / p * 100) ++ "%") else none
      | none => none
    let moving_avg :=
      if 2 ≤ i then
        some ((vs.getD (i - 2) 0 + vs.getD (i - 1) 0 + vs.getD i 0) / 3)
      else none
    ⟨v, moving_avg, percent_change⟩ :: trendLoop vs rest (some v) (i + 1)

/-- Embedding of `get_trends` (time_series.py:951-1100) on the metric value
series: the empty series returns the "no data" response
(time_series.py:1034-1038); otherwise the per-point trend list and the
summary statistics (time_series.py:1074-1083). -/
def get_trends (vs : List ℚ) : TrendResponse :=
  if vs.isEmpty then .noData
  else
    .result (trendLoop vs vs none 0)
      { total_points := vs.length
        min_value := vs.foldl min (vs.headD 0)
        max_value := vs.foldl max (vs.headD 0)
        avg_value := vs.sum / (vs.length : ℚ)
        first_value := vs.headD 0
        last_value := vs.getLastD 0
        overall_change :=
          if vs.headD 0 ≠ 0 then
            fmt2 ((vs.getLastD 0 - vs.headD 0) / vs.headD 0 * 100) ++ "%"
          else "N/A" }

/-- The i-th trend point as the specification describes it: percent change
defined exactly when i > 0 and the previous value is nonzero, 3-point
trailing moving average defined exactly when i ≥ 2. -/
def trendPointSpec (vs : List ℚ) (i : Nat) : TrendPoint :=
  { value := vs.getD i 0
    moving_avg :=
      if 2 ≤ i then
        some ((vs.getD (i - 2) 0 + vs.getD (i - 1) 0 + vs.getD i 0) / 3)
      else none
    percent_change :=
      if 1 ≤ i ∧ vs.getD (i - 1) 0 ≠ 0 then
        some (fmt2 ((vs.getD i 0 - vs.getD (i - 1) 0) / vs.getD (i - 1) 0 * 100)
          ++ "%")
      else none }

theorem trendLoop_eq_spec (vs : List ℚ) :
    ∀ (rest : List ℚ) (i : Nat) (prev : Option ℚ),
      rest = vs.drop i →
      (i = 0 → prev = none) →
      (∀ j, i = j + 1 → prev = some (vs.getD j 0)) →
      trendLoop vs rest prev i =
        (List.range' i rest.length).map (trendPointSpec vs) := by
  intro rest
  induction rest with
  | nil => intro i prev _ _ _; rfl
  | cons v rest ih =>
    intro i prev hdrop h0 hsucc
    have hilt : i < vs.length := by
      by_contra hge
      rw [List.drop_eq_nil_of_le (Nat.le_of_not_lt hge)] at hdrop
      exact List.cons_ne_nil _ _ hdrop
    have hdecomp := List.drop_eq_getElem_cons hilt
    rw [hdecomp] at hdrop
    injection hdrop with hv0 hrest
    have hvD : vs.getD i 0 = v := by
      rw [List.getD_eq_getElem vs 0 hilt]
      exact hv0.symm
    have hvQ : vs[i]? = some v := by
      rw [List.getElem?_eq_getElem hilt]
      exact congrArg some hv0.symm
    rw [List.length_cons, List.range'_succ, List.map_cons]
    simp only [trendLoop]
    refine congrArg₂ _ ?_ ?_
    · unfold trendPointSpec
      cases i with
      | zero =>
        rw [h0 rfl]
        simp [List.getD, hvQ]
      | succ j =>
        rw [hsucc j rfl]
        simp only [Nat.add_sub_cancel, List.getD]
        by_cases hp : vs[j]?.getD 0 = 0 <;> simp [hp, hvQ, Nat.le_add_left]
    · refine ih (i + 1) (some v) hrest (by omega) ?_
      intro j hj
      have hji : j = i := by omega
      subst hji
      rw [hvD]

theorem roundHalfEven_intCast (n : ℤ) : roundHalfEven ((n : ℤ) : ℚ) = n := by
  unfold roundHalfEven ratFloor
  rw [Rat.num_intCast, Rat.den_intCast]
  norm_num [Int.fdiv_one]

/-- Evaluation helper for `fmt2` at arguments whose scaling by 100 is an
integer — the case of every value the claims exercise. -/
theorem fmt2_eval (q : ℚ) (n : ℤ) (h : q * 100 = (n : ℚ)) :
    fmt2 q = (if n < 0 then "-" else "") ++ toString (n.natAbs / 100) ++ "."
      ++ twoDigits (n.natAbs % 100) := by
  unfold fmt2
  rw [h, roundHalfEven_intCast]

/-- C6 (amended): trend analysis returns the "no data" response exactly on
the empty series; otherwise the i-th point carries percent change
(value[i]−value[i−1])/value[i−1], rendered `:.2f` with a percent sign and no
leading plus, exactly when i > 0 and value[i−1] ≠ 0 (an explicit `none`
otherwise, never an exception), a 3-point trailing moving average exactly
when i ≥ 2, and the summary carries min, max, mean, first, last and the
overall change from first to last (\"N/A\" when the first value is 0).  On
[100, 110, 121] the percent changes are [none, \"10.00%\", \"10.00%\"], the
moving average is defined only at index 2 with value 331/3 and the overall
change is \"21.00%\" — the claim's \"+10.00%\"/\"+21.00%\" strings carry a
plus sign the code never emits. -/
theorem get_trends_spec (vs : List ℚ) :
    get_trends vs =
      (if vs = [] then TrendResponse.noData
       else
        TrendResponse.result ((List.range vs.length).map (trendPointSpec vs))
          { total_points := vs.length
            min_value := vs.foldl min (vs.headD 0)
            max_value := vs.foldl max (vs.headD 0)
            avg_value := vs.sum / (vs.length : ℚ)
            first_value := vs.headD 0
            last_value := vs.getLastD 0
            overall_change :=
              if vs.headD 0 ≠ 0 then
                fmt2 ((vs.getLastD 0 - vs.headD 0) / vs.headD 0 * 100) ++ "%"
              else "N/A" }) ∧
    get_trends [100, 110, 121] =
      TrendResponse.result
        [⟨100, none, none⟩, ⟨110, none, some "10.00%"⟩,
          ⟨121, some (331 / 3), some "10.00%"⟩]
        ⟨3, 100, 121, 331 / 3, 100, 121, "21.00%"⟩ := by
  refine ⟨?_, ?_⟩
  · unfold get_trends
    by_cases h : vs = []
    · simp [h]
    · rw [if_neg (by simpa using h), if_neg h]
      have heq := trendLoop_eq_spec vs vs 0 none rfl (fun _ => rfl) (by omega)
      rw [heq, List.range_eq_range']
  · have ea : fmt2 ((110 : ℚ) - 100) ++ "%" = "10.00%" := by
      rw [fmt2_eval _ 1000 (by norm_num)]
      decide
    have eb : fmt2 (((121 : ℚ) - 110) / 110 * 100) ++ "%" = "10.00%" := by
      rw [fmt2_eval _ 1000 (by norm_num)]
      decide
    have ec : fmt2 ((121 : ℚ) - 100) ++ "%" = "21.00%" := by
      rw [fmt2_eval _ 2100 (by norm_num)]
      decide
    simp [get_trends, trendLoop, ea, eb, ec, min_def, max_def]
    norm_num

/-- C6 counterexample: on the series [100, 110, 121] the emitted percent
strings are "10.00%" and "21.00%"; the claim's expected strings "+10.00%"
and "+21.00%" (with a leading plus) do not occur. -/
theorem get_trends_plus_sign_cex :
    get_trends [100, 110, 121] ≠
      TrendResponse.result
        [⟨100, none, none⟩, ⟨110, none, some "+10.00%"⟩,
          ⟨121, some (331 / 3), some "+10.00%"⟩]
        ⟨3, 100, 121, 331 / 3, 100, 121, "+21.00%"⟩ ∧
    ("10.00%" : String) ≠ "+10.00%" ∧ ("21.00%" : String) ≠ "+21.00%" := by
  refine ⟨?_, by decide, by decide⟩
  have ea : fmt2 ((110 : ℚ) - 100) ++ "%" = "10.00%" := by
    rw [fmt2_eval _ 1000 (by norm_num)]
    decide
  have eb : fmt2 (((121 : ℚ) - 110) / 110 * 100) ++ "%" = "10.00%" := by
    rw [fmt2_eval _ 1000 (by norm_num)]
    decide
  have ec : fmt2 ((121 : ℚ) - 100) ++ "%" = "21.00%" := by
    rw [fmt2_eval _ 2100 (by norm_num)]
    decide
  intro h
  rw [show get_trends [100, 110, 121] =
      TrendResponse.result
        [⟨100, none, none⟩, ⟨110, none, some "10.00%"⟩,
          ⟨121, some (331 / 3), some "10.00%"⟩]
        ⟨3, 100, 121, 331 / 3, 100, 121, "21.00%"⟩ by
    simp [get_trends, trendLoop, ea, eb, ec, min_def, max_def]
    norm_num] at h
  simp at h

/-! ## Saturation analysis (`backend/routers/test_runs.py:857-997`)

The SQL feeding `get_saturation_data` selects the historical rows of one
`run_uuid` ordered by `(iodepth * num_jobs) ASC`; the Python then groups them
by `read_write_pattern` into a dict (insertion order = first appearance in
the sorted sequence) and walks each group once.  The embedding sorts with a
stable insertion sort — SQLite leaves the order of equal keys unspecified
but deterministic, and no claim depends on the tie order.  `iodepth` and
`num_jobs` are embedded non-null: every ingested row carries the extraction
defaults (imports.py:566-572), and the `if ... is not None else 1`
replacements (test_runs.py:925-926) are then identities. -/

structure SatRow where
  id : Nat
  read_write_pattern : String
  iodepth : Nat
  num_jobs : Nat
  p95_latency : Option ℚ
deriving DecidableEq

/-- Total outstanding I/O of a step (test_runs.py:895,927). -/
def totalQd (r : SatRow) : Nat := r.iodepth * r.num_jobs

/-- Stable insertion keeping earlier rows first among equal keys. -/
def insertByQd (x : SatRow) : List SatRow → List SatRow
  | [] => [x]
  | y :: ys => if totalQd y ≤ totalQd x then y :: insertByQd x ys else x :: y :: ys

/-- The `ORDER BY (iodepth * num_jobs) ASC` of the query (test_runs.py:895). -/
def sortByQd (rows : List SatRow) : List SatRow :=
  rows.foldl (fun acc x => insertByQd x acc) []

/-- First-appearance deduplication, the insertion order of the Python
`patterns` dict (test_runs.py:921-923); the fuel argument (the list length
suffices) keeps the recursion structural. -/
def firstOccurAux : Nat → List String → List String
  | 0, _ => []
  | _ + 1, [] => []
  | n + 1, x :: xs => x :: firstOccurAux n (xs.filter (fun y => !(y == x)))

def firstOccur (l : List String) : List String := firstOccurAux l.length l

/-- The per-pattern walk (test_runs.py:949-963): skip steps with missing or
negative P95, stop at the first step whose P95 exceeds the threshold
(recording it as saturation point), otherwise keep updating the sweet spot. -/
def walkSteps (threshold : ℚ) (sweet : Option SatRow) :
    List SatRow → Option SatRow × Option SatRow
  | [] => (sweet, none)
  | s :: rest =>
    match s.p95_latency with
    | none => walkSteps threshold sweet rest
    | some p =>
      if p < 0 then walkSteps threshold sweet rest
      else if threshold < p then (sweet, some s)
      else walkSteps threshold (some s) rest

/-- Embedding of `get_saturation_data` (test_runs.py:857-997), from the
sorted row sequence of one run identity to the per-pattern steps with sweet
spot and saturation point. -/
def get_saturation_data (threshold : ℚ) (rows : List SatRow) :
    List (String × List SatRow × Option SatRow × Option SatRow) :=
  (firstOccur ((sortByQd rows).map (fun r => r.read_write_pattern))).map
    fun pat =>
      (pat, (sortByQd rows).filter (fun r => r.read_write_pattern == pat),
        (walkSteps threshold none
          ((sortByQd rows).filter (fun r => r.read_write_pattern == pat))).fst,
        (walkSteps threshold none
          ((sortByQd rows).filter
            (fun r => r.read_write_pattern == pat))).snd)

/-- A step has usable P95 data: present and non-negative
(test_runs.py:953). -/
def validP95 (s : SatRow) : Bool :=
  match s.p95_latency with
  | none => false
  | some p => decide (0 ≤ p)

/-- A step breaches the SLA: usable P95 strictly above the threshold
(test_runs.py:956). -/
def breaches (threshold : ℚ) (s : SatRow) : Bool :=
  validP95 s && decide (threshold < s.p95_latency.getD 0)

theorem walkSteps_eq (threshold : ℚ) :
    ∀ (steps : List SatRow) (sw : Option SatRow),
      walkSteps threshold sw steps =
        (match ((steps.takeWhile (fun s => !breaches threshold s)).filter
            (fun s => validP95 s &&
              decide (s.p95_latency.getD 0 ≤ threshold))).getLast? with
          | some x => some x
          | none => sw,
         steps.find? (breaches threshold)) := by
  intro steps
  induction steps with
  | nil => intro sw; rfl
  | cons s rest ih =>
    intro sw
    cases hp : s.p95_latency with
    | none =>
      have hb : breaches threshold s = false := by simp [breaches, validP95, hp]
      have hv : validP95 s = false := by simp [validP95, hp]
      simp only [walkSteps, hp, List.takeWhile_cons, List.find?_cons, hb,
        Bool.not_false, if_true, List.filter_cons, hv, Bool.false_and,
        if_false]
      exact ih sw
    | some p =>
      by_cases hneg : p < 0
      · have hb : breaches threshold s = false := by
          simp [breaches, validP95, hp, not_le.mpr hneg]
        have hv : validP95 s = false := by
          simp [validP95, hp, not_le.mpr hneg]
        simp only [walkSteps, hp, if_pos hneg, List.takeWhile_cons,
          List.find?_cons, hb, Bool.not_false, if_true, List.filter_cons, hv,
          Bool.false_and, if_false]
        exact ih sw
      · by_cases hbr : threshold < p
        · have hb : breaches threshold s = true := by
            simp [breaches, validP95, hp, le_of_not_lt hneg, hbr]
          simp only [walkSteps, hp]
          rw [if_neg hneg, if_pos hbr]
          simp [hb]
        · have hb : breaches threshold s = false := by
            simp [breaches, validP95, hp, hbr]
          have hvT : validP95 s = true := by
            simp [validP95, hp, le_of_not_lt hneg]
          have hle : p ≤ threshold := le_of_not_lt hbr
          simp only [walkSteps, hp]
          rw [if_neg hneg, if_neg hbr, ih (some s)]
          cases hL : ((rest.takeWhile (fun a => !breaches threshold a)).filter
              (fun a => validP95 a &&
                decide (a.p95_latency.getD 0 ≤ threshold))).getLast? with
          | none =>
            simp [hb, hvT, hle, hp, List.getLast?_cons,
              List.getLastD_eq_getLast?, hL]
          | some x =>
            simp [hb, hvT, hle, hp, List.getLast?_cons,
              List.getLastD_eq_getLast?, hL]

/-- One concrete saturation step at a given queue depth, single job,
pattern "randread". -/
def satStep (i : Nat) (qd : Nat) (p : Option ℚ) : SatRow :=
  ⟨i, "randread", qd, 1, p⟩

/-- The example sweep of the specification, given in scrambled input order:
concurrency 1, 4, 8, 16, 32 with P95 latency 2, 5, 9, 40 ms; the final
step's P95 is left arbitrary to show it is never evaluated. -/
def satExample (q : Option ℚ) : List SatRow :=
  [satStep 4 16 (some 40), satStep 1 1 (some 2), satStep 5 32 q,
    satStep 2 4 (some 5), satStep 3 8 (some 9)]

/-- C5: saturation analysis sorts the steps ascending by queue depth times
job count, walks each pattern group in that order skipping steps with
missing or negative P95, records the last valid step within the threshold as
sweet spot and the first breaching step as saturation point, stopping there;
with no breach the saturation point is undefined and the sweet spot is the
last valid step within the threshold.  On the example sweep (concurrency
1,4,8,16,32; P95 2,5,9,40 ms; threshold 20 ms) the sweet spot is the step at
concurrency 8, the saturation point the step at concurrency 16, and the
result is the same whatever the step at 32 carries — it is not evaluated. -/
theorem get_saturation_data_sorted_walk :
    (∀ (threshold : ℚ) (rows : List SatRow),
      get_saturation_data threshold rows =
        (firstOccur ((sortByQd rows).map (fun r => r.read_write_pattern))).map
          (fun pat =>
            (pat,
              (sortByQd rows).filter (fun r => r.read_write_pattern == pat),
              ((((sortByQd rows).filter
                    (fun r => r.read_write_pattern == pat)).takeWhile
                  (fun s => !breaches threshold s)).filter
                (fun s => validP95 s &&
                  decide (s.p95_latency.getD 0 ≤ threshold))).getLast?,
              ((sortByQd rows).filter
                (fun r => r.read_write_pattern == pat)).find?
                (breaches threshold)))) ∧
    (∀ q : Option ℚ,
      get_saturation_data 20 (satExample q) =
        [("randread",
          [satStep 1 1 (some 2), satStep 2 4 (some 5), satStep 3 8 (some 9),
            satStep 4 16 (some 40), satStep 5 32 q],
          some (satStep 3 8 (some 9)), some (satStep 4 16 (some 40)))]) := by
  constructor
  · intro threshold rows
    unfold get_saturation_data
    refine List.map_congr_left fun pat _ => ?_
    rw [walkSteps_eq]
    cases hL : ((((sortByQd rows).filter
        (fun r => r.read_write_pattern == pat)).takeWhile
          (fun s => !breaches threshold s)).filter
            (fun s => validP95 s &&
              decide (s.p95_latency.getD 0 ≤ threshold))).getLast? with
    | none => simp [hL]
    | some x => simp [hL]
  · intro q
    norm_num [get_saturation_data, sortByQd, insertByQd, totalQd, satExample,
      satStep, firstOccur, firstOccurAux, walkSteps]


/-! ## Identity deriver
(`backend/database/connection.py:239-247`,
`backend/scripts/migrate_add_uuids.py:19-47`)

`generate_uuid_from_hash` hashes the UTF-8 encoding of its input with
SHA-256, keeps the first 16 bytes, forces the UUID version nibble to 5 and
the RFC 4122 variant bits to `10`, and renders the bytes as a hyphenated
UUID string.  SHA-256 (FIPS 180-4) is embedded concretely below on byte
lists, 32-bit words as naturals reduced mod 2³²; the implementation matches
the standard test vectors (see `sha256Bytes_abc_vector`). -/

def w32 : Nat := 4294967296

def rotr32 (n x : Nat) : Nat := ((x >>> n) ||| (x <<< (32 - n))) % w32

def bsig0 (x : Nat) : Nat := rotr32 2 x ^^^ rotr32 13 x ^^^ rotr32 22 x

def bsig1 (x : Nat) : Nat := rotr32 6 x ^^^ rotr32 11 x ^^^ rotr32 25 x

def ssig0 (x : Nat) : Nat := rotr32 7 x ^^^ rotr32 18 x ^^^ (x >>> 3)

def ssig1 (x : Nat) : Nat := rotr32 17 x ^^^ rotr32 19 x ^^^ (x >>> 10)

def chf (e f g : Nat) : Nat := (e &&& f) ^^^ ((e ^^^ (w32 - 1)) &&& g)

def majf (a b c : Nat) : Nat := (a &&& b) ^^^ (a &&& c) ^^^ (b &&& c)

def K64 : List Nat :=
  [1116352408, 1899447441, 3049323471, 3921009573, 961987163,
   1508970993, 2453635748, 2870763221, 3624381080, 310598401,
   607225278, 1426881987, 1925078388, 2162078206, 2614888103,
   3248222580, 3835390401, 4022224774, 264347078, 604807628,
   770255983, 1249150122, 1555081692, 1996064986, 2554220882,
   2821834349, 2952996808, 3210313671, 3336571891, 3584528711,
   113926993, 338241895, 666307205, 773529912, 1294757372,
   1396182291, 1695183700, 1986661051, 2177026350, 2456956037,
   2730485921, 2820302411, 3259730800, 3345764771, 3516065817,
   3600352804, 4094571909, 275423344, 430227734, 506948616,
   659060556, 883997877, 958139571, 1322822218, 1537002063,
   1747873779, 1955562222, 2024104815, 2227730452, 2361852424,
   2428436474, 2756734187, 3204031479, 3329325298]

structure Sha256State where
  a : Nat
  b : Nat
  c : Nat
  d : Nat
  e : Nat
  f : Nat
  g : Nat
  h : Nat
deriving DecidableEq

def initState : Sha256State :=
  ⟨1779033703, 3144134277, 1013904242, 2773480762,
   1359893119, 2600822924, 528734635, 1541459225⟩

/-- Big-endian byte rendering of a natural into k bytes. -/
def toBytesBE (k n : Nat) : List Nat :=
  (List.range k).map fun i => (n >>> (8 * (k - 1 - i))) % 256

/-- Big-endian 32-bit words of a byte list. -/
def wordsOfBytes : List Nat → List Nat
  | b0 :: b1 :: b2 :: b3 :: rest =>
    (((b0 * 256 + b1) * 256 + b2) * 256 + b3) :: wordsOfBytes rest
  | _ => []

/-- SHA-256 padding: a 0x80 byte, zeros to 56 mod 64, the 64-bit big-endian
bit length. -/
def padMessage (msg : List Nat) : List Nat :=
  msg ++ [128] ++ List.replicate ((119 - msg.length % 64) % 64) 0
    ++ toBytesBE 8 (8 * msg.length)

/-- 64-byte blocks of a list; the fuel argument (the length suffices) keeps
the recursion structural. -/
def chunks64Aux : Nat → List Nat → List (List Nat)
  | 0, _ => []
  | _ + 1, [] => []
  | n + 1, l => l.take 64 :: chunks64Aux n (l.drop 64)

def chunks64 (l : List Nat) : List (List Nat) := chunks64Aux l.length l

/-- Message-schedule extension, appending one word per step (48 steps take
the 16 block words to 64). -/
def extendSchedule : Nat → List Nat → List Nat
  | 0, w => w
  | n + 1, w =>
    extendSchedule n (w ++
      [(w.getD (w.length - 16) 0 + ssig0 (w.getD (w.length - 15) 0) +
        w.getD (w.length - 7) 0 + ssig1 (w.getD (w.length - 2) 0)) % w32])

def compressRound (st : Sha256State) (kw : Nat × Nat) : Sha256State :=
  let t1 := (st.h + bsig1 st.e + chf st.e st.f st.g + kw.fst + kw.snd) % w32
  let t2 := (bsig0 st.a + majf st.a st.b st.c) % w32
  ⟨(t1 + t2) % w32, st.a, st.b, st.c, (st.d + t1) % w32, st.e, st.f, st.g⟩

def stateAdd (x y : Sha256State) : Sha256State :=
  ⟨(x.a + y.a) % w32, (x.b + y.b) % w32, (x.c + y.c) % w32, (x.d + y.d) % w32,
   (x.e + y.e) % w32, (x.f + y.f) % w32, (x.g + y.g) % w32, (x.h + y.h) % w32⟩

def stateToList (st : Sha256State) : List Nat :=
  [st.a, st.b, st.c, st.d, st.e, st.f, st.g, st.h]

def processChunk (hst : Sha256State) (chunk : List Nat) : Sha256State :=
  let w := extendSchedule 48 (wordsOfBytes chunk)
  stateAdd hst ((K64.zip w).foldl compressRound hst)

/-- SHA-256 digest (32 bytes) of a byte-list message. -/
def sha256Bytes (msg : List Nat) : List Nat :=
  ((stateToList ((chunks64 (padMessage msg)).foldl processChunk initState)).map
    (toBytesBE 4)).flatten

/-- UTF-8 encoding of one code point. -/
def utf8EncodeCharNat (n : Nat) : List Nat :=
  if n < 128 then [n]
  else if n < 2048 then [192 + n / 64, 128 + n % 64]
  else if n < 65536 then
    [224 + n / 4096, 128 + (n / 64) % 64, 128 + n % 64]
  else
    [240 + n / 262144, 128 + (n / 4096) % 64, 128 + (n / 64) % 64,
      128 + n % 64]

/-- UTF-8 encoding of a string, as Python `str.encode("utf-8")`. -/
def utf8Encode (s : String) : List Nat :=
  (s.data.map fun c => utf8EncodeCharNat c.toNat).flatten

/-- First 16 bytes of the SHA-256 of the UTF-8 encoded input
(`hash_bytes[:16]`, connection.py:241-242). -/
def sha16 (x : String) : List Nat := (sha256Bytes (utf8Encode x)).take 16

/-- The byte rewriting of `generate_uuid_from_hash` at one position:
`uuid_bytes[6] = (uuid_bytes[6] & 0x0F) | 0x50` and
`uuid_bytes[8] = (uuid_bytes[8] & 0x3F) | 0x80`
(connection.py:243-244), all other bytes taken unchanged. -/
def svvF (b : List Nat) (i : Nat) : Nat :=
  if i = 6 then (b.getD i 0 &&& 15) ||| 80
  else if i = 8 then (b.getD i 0 &&& 63) ||| 128
  else b.getD i 0

def setVersionVariant (b : List Nat) : List Nat :=
  (List.range b.length).map (svvF b)

/-- Embedding of `generate_uuid_from_hash` (connection.py:239-247 and
migrate_add_uuids.py:19-47) down to the 16 identifier bytes. -/
def generate_uuid_from_hash (input_string : String) : List Nat :=
  setVersionVariant (sha16 input_string)

/-- The hash bytes with the six overwritten bits cleared: position 6 keeps
its low nibble, position 8 its low six bits.  Two inputs receive the same
identifier exactly when their hashes agree on this mask. -/
def maskF (b : List Nat) (i : Nat) : Nat :=
  if i = 6 then b.getD i 0 &&& 15
  else if i = 8 then b.getD i 0 &&& 63
  else b.getD i 0

def maskedSha (x : String) : List Nat := (List.range 16).map (maskF (sha16 x))

theorem sha256Bytes_length (msg : List Nat) : (sha256Bytes msg).length = 32 := by
  simp [sha256Bytes, stateToList, toBytesBE]

theorem sha16_length (x : String) : (sha16 x).length = 16 := by
  simp [sha16, sha256Bytes_length]

theorem range_map_getD (n i : Nat) (f : Nat → Nat) (h : i < n) :
    ((List.range n).map f).getD i 0 = f i := by
  rw [List.getD_eq_getElem _ _ (by simpa using h)]
  simp

theorem generate_uuid_eq_range_map (x : String) :
    generate_uuid_from_hash x = (List.range 16).map (svvF (sha16 x)) := by
  unfold generate_uuid_from_hash setVersionVariant
  rw [sha16_length]

theorem and_15_eq_mod (x : Nat) : x &&& 15 = x % 16 := by
  have h := Nat.and_pow_two_sub_one_eq_mod x 4
  norm_num at h
  exact h

theorem and_63_eq_mod (x : Nat) : x &&& 63 = x % 64 := by
  have h := Nat.and_pow_two_sub_one_eq_mod x 6
  norm_num at h
  exact h

theorem lor_80_of_lt (m : Nat) (h : m < 16) : m ||| 80 = m + 80 := by
  have hall : ∀ k : Fin 16, ((k : Nat) ||| 80) = (k : Nat) + 80 := by decide
  exact hall ⟨m, h⟩

theorem lor_128_of_lt (m : Nat) (h : m < 64) : m ||| 128 = m + 128 := by
  have hall : ∀ k : Fin 64, ((k : Nat) ||| 128) = (k : Nat) + 128 := by decide
  exact hall ⟨m, h⟩

theorem svvF_six (b : List Nat) : svvF b 6 = b.getD 6 0 % 16 + 80 := by
  unfold svvF
  rw [if_pos rfl, and_15_eq_mod, lor_80_of_lt _ (Nat.mod_lt _ (by norm_num))]

theorem svvF_eight (b : List Nat) : svvF b 8 = b.getD 8 0 % 64 + 128 := by
  unfold svvF
  rw [if_neg (by norm_num), if_pos rfl, and_63_eq_mod,
    lor_128_of_lt _ (Nat.mod_lt _ (by norm_num))]

/-- C7: the identity deriver is pure and deterministic — repeated application
to one input is the identical 16-byte identifier — the output always carries
version nibble 5 (byte 6 high nibble) and RFC 4122 variant bits 10 (byte 8
top two bits), every remaining bit is taken from the SHA-256 hash of the
input (bytes other than 6 and 8 unchanged, the low nibble of byte 6 and the
low six bits of byte 8 preserved), and two inputs receive the same
identifier exactly when their hashes agree outside the six overwritten bits
— so distinct identifiers follow from distinct hashes, i.e. from SHA-256
collision resistance. -/
theorem generate_uuid_deterministic_v5_hash_bits (x : String) :
    generate_uuid_from_hash x = generate_uuid_from_hash x ∧
    (generate_uuid_from_hash x).length = 16 ∧
    (generate_uuid_from_hash x).getD 6 0 / 16 = 5 ∧
    (generate_uuid_from_hash x).getD 8 0 / 64 = 2 ∧
    (∀ i, i < 16 → i ≠ 6 → i ≠ 8 →
      (generate_uuid_from_hash x).getD i 0 = (sha16 x).getD i 0) ∧
    (generate_uuid_from_hash x).getD 6 0 % 16 = (sha16 x).getD 6 0 % 16 ∧
    (generate_uuid_from_hash x).getD 8 0 % 64 = (sha16 x).getD 8 0 % 64 ∧
    (∀ y, generate_uuid_from_hash x = generate_uuid_from_hash y ↔
      maskedSha x = maskedSha y) := by
  have huuid : ∀ z, generate_uuid_from_hash z =
      (List.range 16).map (svvF (sha16 z)) := generate_uuid_eq_range_map
  refine ⟨rfl, ?_, ?_, ?_, ?_, ?_, ?_, ?_⟩
  · rw [huuid x]
    simp
  · rw [huuid x, range_map_getD 16 6 _ (by norm_num), svvF_six]
    omega
  · rw [huuid x, range_map_getD 16 8 _ (by norm_num), svvF_eight]
    omega
  · intro i hi h6 h8
    rw [huuid x, range_map_getD 16 i _ hi]
    unfold svvF
    rw [if_neg h6, if_neg h8]
  · rw [huuid x, range_map_getD 16 6 _ (by norm_num), svvF_six]
    omega
  · rw [huuid x, range_map_getD 16 8 _ (by norm_num), svvF_eight]
    omega
  · intro y
    rw [huuid x, huuid y]
    unfold maskedSha
    rw [List.map_inj_left, List.map_inj_left]
    constructor
    · intro hpt i hi
      have hp := hpt i hi
      by_cases h6 : i = 6
      · subst h6
        rw [svvF_six, svvF_six] at hp
        simp only [maskF]
        norm_num [and_15_eq_mod]
        simp only [List.getD_eq_getElem?_getD] at hp ⊢
        omega
      · by_cases h8 : i = 8
        · subst h8
          rw [svvF_eight, svvF_eight] at hp
          simp only [maskF]
          norm_num [and_63_eq_mod]
          simp only [List.getD_eq_getElem?_getD] at hp ⊢
          omega
        · unfold svvF at hp
          rw [if_neg h6, if_neg h8, if_neg h6, if_neg h8] at hp
          unfold maskF
          rw [if_neg h6, if_neg h8, if_neg h6, if_neg h8]
          exact hp
    · intro hpt i hi
      have hp := hpt i hi
      by_cases h6 : i = 6
      · subst h6
        simp only [maskF] at hp
        norm_num [and_15_eq_mod] at hp
        rw [svvF_six, svvF_six]
        simp only [List.getD_eq_getElem?_getD] at hp ⊢
        omega
      · by_cases h8 : i = 8
        · subst h8
          simp only [maskF] at hp
          norm_num [and_63_eq_mod] at hp
          rw [svvF_eight, svvF_eight]
          simp only [List.getD_eq_getElem?_getD] at hp ⊢
          omega
        · unfold maskF at hp
          rw [if_neg h6, if_neg h8, if_neg h6, if_neg h8] at hp
          unfold svvF
          rw [if_neg h6, if_neg h8, if_neg h6, if_neg h8]
          exact hp

/-- C7 witness: the bit-structure statement applied at the input "srv01" and
byte position 0. -/
theorem generate_uuid_deterministic_v5_hash_bits_witness :
    ((0 : Nat) < 16 ∧ (0 : Nat) ≠ 6 ∧ (0 : Nat) ≠ 8) ∧
    (generate_uuid_from_hash "srv01").getD 0 0 = (sha16 "srv01").getD 0 0 ∧
    generate_uuid_from_hash "srv01" = generate_uuid_from_hash "srv01" :=
  ⟨⟨by norm_num, by norm_num, by norm_num⟩,
    (generate_uuid_deterministic_v5_hash_bits "srv01").2.2.2.2.1 0
      (by norm_num) (by norm_num) (by norm_num),
    (generate_uuid_deterministic_v5_hash_bits "srv01").1⟩

/-- The embedded SHA-256 matches the FIPS 180-4 test vector for "abc". -/
theorem sha256Bytes_abc_vector :
    sha256Bytes (utf8Encode "abc") =
      [186, 120, 22, 191, 143, 1, 207, 234, 65, 65, 64,
        222, 93, 174, 34, 35, 176, 3, 97, 163, 150, 23,
        122, 156, 180, 16, 255, 97, 242, 0, 21, 173] := by
  decide

/-- Backfill of `config_uuid` for one record (connection.py:278-283,
migrate_add_uuids.py:89-91): the identifier is derived from the hostname
alone; the migration's falsy-hostname guard maps an empty hostname to
"unknown". -/
def backfillConfigUuid (r : RunData) : List Nat :=
  generate_uuid_from_hash (if r.hostname = "" then "unknown" else r.hostname)

/-- A record sharing `cexRun1`'s hostname while differing in every other
configuration dimension. -/
def cexRun3 : RunData :=
  { hostname := "srv01", protocol := "iSCSI", drive_type := "HDD"
    drive_model := "WD40", block_size := "64K"
    read_write_pattern := "sequential_write", output_file := "other"
    test_size := "1G", queue_depth := 16, duration := 120, num_jobs := 8
    direct := 1, sync := 1, iodepth := 16, is_latest := 1 }

/-- C10: the configuration identity depends only on the hostname — two
records with equal hostname receive the identical `config_uuid`, whatever
their other configuration dimensions. -/
theorem config_uuid_depends_only_on_hostname (r1 r2 : RunData)
    (h : r1.hostname = r2.hostname) :
    backfillConfigUuid r1 = backfillConfigUuid r2 := by
  unfold backfillConfigUuid
  rw [h]

/-- C10 witness: `cexRun1` and `cexRun3` share the hostname "srv01", differ
in protocol, drive model, pattern and queue depth, and receive the same
config identity. -/
theorem config_uuid_depends_only_on_hostname_witness :
    cexRun1.hostname = cexRun3.hostname ∧
    backfillConfigUuid cexRun1 = backfillConfigUuid cexRun3 ∧
    cexRun1.protocol ≠ cexRun3.protocol ∧
    cexRun1.drive_model ≠ cexRun3.drive_model ∧
    cexRun1.read_write_pattern ≠ cexRun3.read_write_pattern ∧
    cexRun1.queue_depth ≠ cexRun3.queue_depth :=
  ⟨rfl, config_uuid_depends_only_on_hostname cexRun1 cexRun3 rfl,
    by decide, by decide, by decide, by decide⟩

end FioAnalyzer
